import Mathlib

/-!
# Verification of `check-side-effects`

A shallow embedding of the core of the `check-side-effects` package:

* the side-effect extraction pipeline (`checkSideEffects` in `src/checker.ts`),
* the synthetic entry builder it contains,
* the regression test harness (`main`, test branch, in `src/cli.ts`), and
* the toplevel-property-access tslint rule
  (`src/tslint/noToplevelPropertyAccessRule.ts`).

Filesystem state is modelled explicitly as an association list of files plus a
list of directories; the bundler (rollup together with its plugins) is an
oracle parameter that either yields output chunks or raises; path resolution
(Node's `path.resolve`) is an abstract function parameter.  JavaScript string
operations used by the code (`Array.prototype.join`, global regex replace)
are embedded as executable Lean functions.
-/

set_option autoImplicit false

namespace CheckSideEffects

/-- One-character string holding an apostrophe, used when generating the
synthetic entry's `import` statements. -/
def quoteChar : String := "\x27"

/-- Model of JavaScript `Array.prototype.join(sep)` on a list of strings. -/
def joinSep (sep : String) : List String → String
  | [] => ""
  | [s] => s
  | s :: r :: rest => s ++ sep ++ joinSep sep (r :: rest)

/-- Model of the JavaScript `.replace(/\\/g, "/")` call: every backslash
character of the string becomes a forward slash. -/
def replaceBackslashes (s : String) : String :=
  String.mk (s.data.map fun c => if c = '\\' then '/' else c)

/-! ## The toplevel-property-access syntax rule

From `src/tslint/noToplevelPropertyAccessRule.ts`.  Syntax trees are modelled
as nodes carrying a TypeScript syntax kind and a list of children; the walk
mirrors the `forEachChild`-based callback of the source. -/

/-- The TypeScript syntax kinds the rule distinguishes, plus the kinds used to
build concrete example trees.  `other` stands for any further kind: the rule
treats all of those uniformly (descend without flagging). -/
inductive TsKind where
  | functionDeclaration
  | functionExpression
  | classDeclaration
  | classExpression
  | arrowFunction
  | methodDeclaration
  | interfaceDeclaration
  | propertyAccessExpression
  | elementAccessExpression
  | sourceFile
  | identifier
  | expressionStatement
  | block
  | other
deriving DecidableEq, Repr

/-- A TypeScript syntax node: a kind together with its children. -/
inductive TsNode where
  | mk (kind : TsKind) (children : List TsNode)

/-- The kind of a node. -/
def TsNode.kind : TsNode → TsKind
  | .mk k _ => k

/-- The children of a node. -/
def TsNode.children : TsNode → List TsNode
  | .mk _ cs => cs

/-- The disjunction `ts.isFunctionDeclaration(node) || ts.isFunctionExpression(node) ||
ts.isClassDeclaration(node) || ts.isClassExpression(node) || ts.isArrowFunction(node) ||
ts.isMethodDeclaration(node) || ts.isInterfaceDeclaration(node)` from the rule:
the opaque definition constructs whose bodies do not run at module load time. -/
def isOpaqueKind : TsKind → Bool
  | .functionDeclaration => true
  | .functionExpression => true
  | .classDeclaration => true
  | .classExpression => true
  | .arrowFunction => true
  | .methodDeclaration => true
  | .interfaceDeclaration => true
  | _ => false

/-- The disjunction `ts.isPropertyAccessExpression(node) ||
ts.isElementAccessExpression(node)` from the rule. -/
def isAccessKind : TsKind → Bool
  | .propertyAccessExpression => true
  | .elementAccessExpression => true
  | _ => false

/-- `Rule.FAILURE_STRING` of the rule. -/
def failureString : String := "Avoid toplevel property access."

mutual

/-- The callback `cb` of the rule's `walk` function.  A failure is recorded as
the pair of the node it was added at and the failure message, in the order
`ctx.addFailureAtNode` is called. -/
def cb : TsNode → List (TsNode × String)
  | .mk k cs =>
    if isOpaqueKind k then []
    else
      (if isAccessKind k then [(TsNode.mk k cs, failureString)] else [])
        ++ cbChildren cs

/-- `ts.forEachChild(node, cb)`: run `cb` on every child, collecting the
failures in order. -/
def cbChildren : List TsNode → List (TsNode × String)
  | [] => []
  | c :: cs => cb c ++ cbChildren cs

end

/-- The rule's `walk`: `ts.forEachChild(ctx.sourceFile, cb)` runs the callback
on each child of the source file (not on the source-file node itself). -/
def walk (sourceFile : TsNode) : List (TsNode × String) :=
  cbChildren sourceFile.children

/-! ## Filesystem model

The `fs` calls the code performs (`existsSync`, `writeFileSync`, `unlinkSync`,
`rmdirSync`, `mkdirSync`, `mkdtempSync`, `readFileSync`) act on an explicit
filesystem value: an association list from file path to content plus a list
of directory paths. -/

/-- A filesystem state: files (path, content) and directories. -/
structure FS where
  files : List (String × String)
  dirs : List String
deriving DecidableEq, Repr

/-- Whether a regular file exists at `p`. -/
def FS.fileExists (fs : FS) (p : String) : Bool :=
  fs.files.any fun e => e.1 == p

/-- Whether a directory exists at `p`. -/
def FS.dirExists (fs : FS) (p : String) : Bool :=
  fs.dirs.any fun d => d == p

/-- Node's `existsSync`: true for files and directories alike. -/
def FS.existsSync (fs : FS) (p : String) : Bool :=
  fs.fileExists p || fs.dirExists p

/-- The content of the file at `p`, if one exists. -/
def FS.readFileD (fs : FS) (p : String) : Option String :=
  (fs.files.find? fun e => e.1 == p).map (·.2)

/-- Node's `writeFileSync`: create or overwrite the file at `p`. -/
def FS.writeFileSync (fs : FS) (p c : String) : FS :=
  { fs with files := (p, c) :: fs.files.filter fun e => e.1 != p }

/-- Node's `readFileSync`, which throws when no file exists at `p`; the
throw is modelled as `Except.error`. -/
def FS.readFileSyncE (fs : FS) (p : String) : Except String String :=
  match fs.readFileD p with
  | some c => .ok c
  | none => .error ("ENOENT: no such file " ++ p)

/-- Node's `unlinkSync`: remove the file at `p`. -/
def FS.unlinkSync (fs : FS) (p : String) : FS :=
  { fs with files := fs.files.filter fun e => e.1 != p }

/-- Node's `rmdirSync`: remove the directory at `p`. -/
def FS.rmdirSync (fs : FS) (p : String) : FS :=
  { fs with dirs := fs.dirs.filter fun d => d != p }

/-- Node's `mkdirSync`: create the directory at `p`. -/
def FS.mkdirSync (fs : FS) (p : String) : FS :=
  { fs with dirs := p :: fs.dirs }

/-- Node's `mkdtempSync(prefix)` creates a fresh uniquely-named scratch
directory; the fresh name is supplied as a parameter of the invocation, and
this function records its creation. -/
def FS.mkdtempSync (fs : FS) (freshName : String) : FS × String :=
  (fs.mkdirSync freshName, freshName)

/-! ## The extraction pipeline: `checkSideEffects` (`src/checker.ts`)

The embedding follows the current checker (the variant that allocates a
scratch directory via `mkdtempSync`).  Node's `path.resolve` is an abstract
parameter `resolvePath`; the bundling step (`rollup(inputOptions)` together
with the plugin stack) is an oracle that either yields the output chunks or
raises.  `bundle.write` / `bundle.generate` are driven by those chunks; the
byte content `bundle.write` puts at the output path is abstracted as the
residual code of the chunks (no claim concerns it). -/

/-- One element of rollup's `output` array: an `OutputChunk` or `OutputAsset`. -/
structure Chunk where
  isAsset : Bool
  code : String
deriving DecidableEq, Repr

/-- The bundling oracle: `rollup(inputOptions)` either succeeds, determining
the output chunks later rounds of `write`/`generate` see, or raises. -/
structure Bundler where
  build : Except String (List Chunk)

/-- `esModules.map(m => resolve(cwd, m).replace(/\\/g, "/"))`. -/
def resolveModules (resolvePath : String → String → String) (cwd : String)
    (esModules : List String) : List String :=
  esModules.map fun m => replaceBackslashes (resolvePath cwd m)

/-- The synthetic entry content:
`resolvedEsModules.map(m => "import \x27" + m + "\x27;").join("\n")`. -/
def syntheticEntryContent (resolvedEsModules : List String) : String :=
  joinSep "\n" (resolvedEsModules.map fun m =>
    "import " ++ quoteChar ++ m ++ quoteChar ++ ";")

/-- The aggregate error thrown when some modules are missing. -/
def missingMessage (missingModules : List String) : String :=
  "Could not find the following modules: " ++ joinSep "," missingModules
    ++ ".\nPlease provide relative/absolute paths to the ES modules you want to check."

/-- The in-memory result: non-asset chunks' code joined by newlines
(`output.filter(c => !c.isAsset).map(c => c.code).join("\n")`). -/
def residualCode (outputs : List Chunk) : String :=
  joinSep "\n" ((outputs.filter fun c => !c.isAsset).map Chunk.code)

/-- `checkSideEffects` from `src/checker.ts`, as a function from the starting
filesystem to the final filesystem and the returned value: `Except.error` for
a throw, `Except.ok none` for a resolved promise with value `undefined`
(on-disk mode), `Except.ok (some s)` for the in-memory residual code.
`tmpDirName` is the fresh name `mkdtempSync` picks for this invocation. -/
def checkSideEffects (resolvePath : String → String → String)
    (tmpDirName : String) (bundler : Bundler) (cwd : String)
    (esModules : List String) (output : Option String) (fs : FS) :
    FS × Except String (Option String) :=
  -- Resolve provided paths.
  let resolvedEsModules := resolveModules resolvePath cwd esModules
  let outputFilePath := output.map fun o => resolvePath cwd o
  -- Verify the modules exist.
  let missingModules := resolvedEsModules.filter fun m => !fs.existsSync m
  if missingModules.isEmpty then
    -- Write a temporary file that imports the modules to test.
    let (fs, tmpDir) := fs.mkdtempSync tmpDirName
    let tmpInputFilename := resolvePath tmpDir "./index.js"
    let fs := fs.writeFileSync tmpInputFilename
      (syntheticEntryContent resolvedEsModules)
    -- Create a bundle; a raising bundling step propagates, skipping cleanup.
    match bundler.build with
    | .error e => (fs, .error e)
    | .ok outputChunks =>
      let fs := match outputFilePath with
        | some p => fs.writeFileSync p (residualCode outputChunks)
        | none => fs
      -- Delete the temporary directory.
      let fs := fs.unlinkSync tmpInputFilename
      let fs := fs.rmdirSync tmpDir
      match outputFilePath with
      | some _ => (fs, .ok none)
      | none => (fs, .ok (some (residualCode outputChunks)))
  else
    (fs, .error (missingMessage missingModules))

/-! ## The regression test harness (`src/cli.ts`, test branch)

The embedding follows the `options.test` branch of `main` in the current cli:
load the suite, run every case sequentially, compare against the baseline
file, accumulate `failedExpectations`, in update mode rewrite baselines, and
at the end either pass, report updates, or throw the aggregate failure.
The pipeline invocation `await checkSideEffects(checkSideEffectsOptions)` is
abstracted as a deterministic oracle `run`, taking the resolved module list
and the case (whose `options` overlay it absorbs); its scratch-file effects
live in the OS temp directory and are modelled separately in
`checkSideEffects` above. -/

/-- A JSON value that is either a string or an array of strings, as the
`esModules` field of a test case may be. -/
inductive StrOrList where
  | str (s : String)
  | list (l : List String)
deriving DecidableEq, Repr

/-- `Array.isArray(test.esModules) ? test.esModules : [test.esModules]`. -/
def toModuleList : StrOrList → List String
  | .str s => [s]
  | .list l => l

/-- One entry of the suite's `tests` array.  The optional `options` override
is absorbed into the `run` oracle. -/
structure TestCase where
  esModules : StrOrList
  expectedOutput : String
deriving DecidableEq, Repr

/-- `esModulesDescription = unresolvedEsModules.join(" ")`. -/
def descriptionOf (t : TestCase) : String :=
  joinSep " " (toModuleList t.esModules)

/-- Model of Node's POSIX `path.dirname`: everything up to the last slash;
a path without a slash has dirname `"."` (absolute-root edge cases are not
exercised by any claim). -/
def dirname (s : String) : String :=
  if s.data.contains '/' then
    String.mk ((s.data.reverse.dropWhile fun c => c != '/').tail).reverse
  else "."

/-- The recursion of `_recursiveMkDir`, fuelled: `fuel` bounds the length of
the ancestor chain walked (each `dirname` strictly shortens a slash-containing
path, and a real run stops at an existing ancestor long before the bound). -/
def recursiveMkDirAux : Nat → FS → String → FS
  | 0, fs, _ => fs
  | fuel + 1, fs, path =>
    if fs.existsSync path then fs
    else (recursiveMkDirAux fuel fs (dirname path)).mkdirSync path

/-- `_recursiveMkDir(path)` from `src/cli.ts`: create `path` and its missing
ancestors. -/
def FS.recursiveMkDir (fs : FS) (path : String) : FS :=
  recursiveMkDirAux (path.length + 1) fs path

/-- The baseline load of one case: `existsSync` then `readFileSync`, with a
missing baseline read as the empty string.  `Except.error` is the
`readFileSync` throw (possible only when a directory, not a file, sits at
the path). -/
def FS.loadExpected (fs : FS) (expectedOutputPath : String) :
    Except String String :=
  if fs.existsSync expectedOutputPath then fs.readFileSyncE expectedOutputPath
  else .ok ""

/-- The stored expected text of a baseline path: the file's content, or the
empty string when no file is there.  Equal to the value `loadExpected`
yields whenever the load does not fault. -/
def FS.expectedString (fs : FS) (p : String) : String :=
  (fs.readFileD p).getD ""

/-- The extraction result of one case: the `run` oracle applied to the
case's module references resolved against the test file's directory. -/
def caseResult (run : List String → TestCase → String)
    (resolvePath : String → String → String) (testFileDir : String)
    (t : TestCase) : String :=
  run ((toModuleList t.esModules).map fun esm => resolvePath testFileDir esm) t

/-- The resolved baseline path of one case:
`resolve(options.cwd, test.expectedOutput)`. -/
def baselinePath (resolvePath : String → String → String) (cwd : String)
    (t : TestCase) : String :=
  resolvePath cwd t.expectedOutput

/-- The body of the `for (const test of testJson.tests)` loop for one case:
run the pipeline, load the baseline, on mismatch record the case and in
update mode rewrite the baseline (creating parent directories).  The `Bool`
says whether the case was recorded in `failedExpectations`. -/
def runOneTest (update : Bool) (run : List String → TestCase → String)
    (resolvePath : String → String → String) (testFileDir cwd : String)
    (fs : FS) (test : TestCase) : Except String (FS × Bool) :=
  let result := caseResult run resolvePath testFileDir test
  let expectedOutputPath := baselinePath resolvePath cwd test
  match fs.loadExpected expectedOutputPath with
  | .error e => .error e
  | .ok expectedOutput =>
    if result != expectedOutput then
      if update then
        .ok ((fs.recursiveMkDir (dirname expectedOutputPath)).writeFileSync
          expectedOutputPath result, true)
      else .ok (fs, true)
    else .ok (fs, false)

/-- The whole case loop: the final filesystem, `failedExpectations` in order,
and the fault that aborted the loop, if any (a fault discards the
accumulated list, as the throw propagates out of `main` at once). -/
def runTestsLoop (update : Bool) (run : List String → TestCase → String)
    (resolvePath : String → String → String) (testFileDir cwd : String) :
    FS → List TestCase → FS × List String × Option String
  | fs, [] => (fs, [], none)
  | fs, t :: rest =>
    match runOneTest update run resolvePath testFileDir cwd fs t with
    | .error e => (fs, [], some e)
    | .ok (fs1, mismatch) =>
      let (fs2, failedRest, fault) :=
        runTestsLoop update run resolvePath testFileDir cwd fs1 rest
      (fs2, (if mismatch then [descriptionOf t] else []) ++ failedRest, fault)

/-- The aggregate failure thrown outside update mode. -/
def failureMessage (failedExpectations : List String) : String :=
  "Tests failed for modules:\n"
    ++ joinSep "\n" (failedExpectations.map fun s => "  " ++ s) ++ "\n"
    ++ "\nTo update the expectations, run this command again with the --update flag.\n"

/-- The update-mode report printed instead of throwing. -/
def updatedMessage (failedExpectations : List String) : String :=
  "Test expectations updated for modules:\n"
    ++ joinSep "\n" (failedExpectations.map fun s => "  " ++ s) ++ "\n"

/-- How the batch ends. -/
inductive BatchResult where
  | passed
  | updated (report : String)
  | failed (message : String)
  | faulted (error : String)
deriving DecidableEq, Repr

/-- The observable outcome of the test branch of `main`. -/
structure HarnessOutcome where
  fs : FS
  failed : List String
  result : BatchResult
deriving DecidableEq, Repr

/-- The test branch of `main`: run all cases, then pass, report updates, or
throw `failureMessage`; a per-case fault propagates out immediately. -/
def runTests (update : Bool) (run : List String → TestCase → String)
    (resolvePath : String → String → String) (testFileDir cwd : String)
    (fs : FS) (tests : List TestCase) : HarnessOutcome :=
  match runTestsLoop update run resolvePath testFileDir cwd fs tests with
  | (fs1, failed, some e) => ⟨fs1, failed, .faulted e⟩
  | (fs1, failed, none) =>
    if failed.length > 0 then
      if update then ⟨fs1, failed, .updated (updatedMessage failed)⟩
      else ⟨fs1, failed, .failed (failureMessage failed)⟩
    else ⟨fs1, failed, .passed⟩

/-! ## Concrete fixtures

Example syntax trees and concrete invocations used to witness the theorems
below and to exhibit counterexamples. -/

/-- The syntax tree of `a.b` : a property access on an identifier. -/
def innerAccess : TsNode :=
  TsNode.mk .propertyAccessExpression [TsNode.mk .identifier [], TsNode.mk .identifier []]

/-- The syntax tree of `a.b.c` : a property access whose expression is itself
a property access. -/
def outerAccess : TsNode :=
  TsNode.mk .propertyAccessExpression [innerAccess, TsNode.mk .identifier []]

/-- A module consisting of the single top-level statement `a.b.c;`. -/
def chainedAccessModule : TsNode :=
  TsNode.mk .sourceFile [TsNode.mk .expressionStatement [outerAccess]]

/-- A module consisting of `function f() { a.b; }` and no other statement. -/
def functionModule : TsNode :=
  TsNode.mk .sourceFile [TsNode.mk .functionDeclaration [TsNode.mk .identifier [],
    TsNode.mk .block [TsNode.mk .expressionStatement [innerAccess]]]]

/-- A concrete `path.resolve` for pipeline fixtures: the scratch entry resolves
under its directory, any other path stands as given (as absolute paths do). -/
def cexResolve : String → String → String :=
  fun a b => if b = "./index.js" then a ++ "/index.js" else b

/-- A filesystem holding one ES module at `/m.js`. -/
def cexFS : FS := ⟨[("/m.js", "code")], ["/"]⟩

/-- A pipeline invocation on `/m.js` whose bundling step raises `"boom"`. -/
def cexInvocation : FS × Except String (Option String) :=
  checkSideEffects cexResolve "/tmp/scratch" ⟨.error "boom"⟩ "/" ["/m.js"] none cexFS

/-- A pipeline invocation on `/m.js` whose bundling step yields one chunk. -/
def okInvocation : FS × Except String (Option String) :=
  checkSideEffects cexResolve "/tmp/scratch" ⟨.ok [⟨false, "residual"⟩]⟩ "/"
    ["/m.js"] none cexFS

/-- A concrete `path.resolve` for harness fixtures: plain slash concatenation. -/
def hResolve : String → String → String := fun a b => a ++ "/" ++ b

/-- Two test cases sharing one baseline path. -/
def shared1 : TestCase := ⟨.list ["m1"], "base/out.txt"⟩

/-- Second case on the shared baseline path, with different modules. -/
def shared2 : TestCase := ⟨.list ["m2"], "base/out.txt"⟩

/-- A deterministic extraction oracle giving the two shared-path cases
different results. -/
def sharedRun : List String → TestCase → String :=
  fun mods _ => if mods = ["tfd/m1"] then "A" else "B"

/-- The harness fixture filesystem: working directories exist, no baselines. -/
def hFS : FS := ⟨[], ["cwd", "."]⟩

/-- The update-mode run of the two shared-baseline cases. -/
def sharedUpdateRun : HarnessOutcome :=
  runTests true sharedRun hResolve "tfd" "cwd" hFS [shared1, shared2]

/-- A case whose baseline file exists and already holds its extraction
result. -/
def w5t1 : TestCase := ⟨.list ["m1"], "out1.txt"⟩

/-- A case whose baseline file is missing while its extraction result is
nonempty. -/
def w5t2 : TestCase := ⟨.list ["m2"], "out2.txt"⟩

/-- A filesystem holding the matching baseline of `w5t1` only. -/
def w5FS : FS := ⟨[("cwd/out1.txt", "A")], ["cwd", "."]⟩

/-- The suite's cases whose extraction result differs from the stored
expected text at their baseline path in the given filesystem. -/
def mismatching (run : List String → TestCase → String)
    (resolvePath : String → String → String) (testFileDir cwd : String)
    (fs : FS) (tests : List TestCase) : List TestCase :=
  tests.filter fun t =>
    caseResult run resolvePath testFileDir t
      != fs.expectedString (baselinePath resolvePath cwd t)

/-! ## Helper lemmas -/

lemma mem_joinSep_substring (sep : String) (l : List String) (m : String)
    (h : m ∈ l) : m.data <:+: (joinSep sep l).data := by
  induction l with
  | nil => cases h
  | cons a rest ih =>
    cases rest with
    | nil =>
      simp only [List.mem_singleton] at h
      subst h
      exact List.infix_rfl
    | cons b t =>
      rcases List.mem_cons.mp h with h1 | h2
      · subst h1
        rw [joinSep, String.data_append, String.data_append]
        exact ((List.prefix_append m.data _).isInfix).trans
          (by rw [List.append_assoc])
      · have := ih h2
        rw [joinSep, String.data_append]
        exact this.trans (List.suffix_append _ _).isInfix

lemma infix_missingMessage (missing : List String) (m : String)
    (h : m ∈ missing) : m.data <:+: (missingMessage missing).data := by
  rw [missingMessage, String.data_append, String.data_append]
  exact ((mem_joinSep_substring "," missing m h).trans
    (List.suffix_append _ _).isInfix).trans (List.prefix_append _ _).isInfix

lemma fileExists_unlinkSync_self (fs : FS) (p : String) :
    (fs.unlinkSync p).fileExists p = false := by
  simp only [FS.unlinkSync, FS.fileExists, List.any_eq_false]
  intro e he
  rcases List.mem_filter.mp he with ⟨_, hne⟩
  simpa using hne

lemma dirExists_rmdirSync_self (fs : FS) (p : String) :
    (fs.rmdirSync p).dirExists p = false := by
  simp only [FS.rmdirSync, FS.dirExists, List.any_eq_false]
  intro d hd
  rcases List.mem_filter.mp hd with ⟨_, hne⟩
  simpa using hne

lemma fileExists_rmdirSync (fs : FS) (p q : String) :
    (fs.rmdirSync p).fileExists q = fs.fileExists q := rfl

lemma dirExists_unlinkSync (fs : FS) (p q : String) :
    (fs.unlinkSync p).dirExists q = fs.dirExists q := rfl

lemma replaceBackslashes_no_backslash (s : String) :
    '\\' ∉ (replaceBackslashes s).data := by
  simp only [replaceBackslashes, List.mem_map]
  rintro ⟨c, _, hc⟩
  by_cases h : c = '\\' <;> simp [h] at hc

lemma joinSep_no_backslash (sep : String) (l : List String)
    (hsep : '\\' ∉ sep.data) (h : ∀ s ∈ l, '\\' ∉ s.data) :
    '\\' ∉ (joinSep sep l).data := by
  induction l with
  | nil => simp [joinSep]
  | cons a rest ih =>
    cases rest with
    | nil => exact h a (by simp)
    | cons b t =>
      rw [joinSep, String.data_append, String.data_append]
      simp only [List.mem_append]
      push_neg
      exact ⟨⟨h a (by simp), hsep⟩, ih fun s hs => h s (List.mem_cons_of_mem _ hs)⟩

/-! ## The syntax-rule claims -/

/-- C3: the walk stops at every opaque definition node (function
declaration/expression, class declaration/expression, arrow function, method,
interface declaration) and never descends into its subtree; hence the module
`function f() { a.b; }` with no top-level call to `f` yields zero failures. -/
theorem walk_stops_at_definitions :
    (∀ (k : TsKind) (cs : List TsNode), isOpaqueKind k = true →
        cb (TsNode.mk k cs) = [])
      ∧ walk functionModule = [] := by
  constructor
  · intro k cs h
    simp [cb, h]
  · rfl

/-- Witness for C3 at the function-declaration node of `functionModule`. -/
theorem walk_stops_at_definitions_witness :
    isOpaqueKind .functionDeclaration = true
      ∧ cb (TsNode.mk .functionDeclaration [innerAccess]) = [] :=
  ⟨rfl, walk_stops_at_definitions.1 .functionDeclaration [innerAccess] rfl⟩

/-- C4: every reachable property-access or element-access node records
exactly one failure, at that node, with message `failureString`, and the walk
then continues into the node's children; the chained access `a.b.c;` hence
produces one failure per access expression in the chain. -/
theorem walk_flags_each_access :
    (∀ (k : TsKind) (cs : List TsNode), isAccessKind k = true →
        cb (TsNode.mk k cs) = (TsNode.mk k cs, failureString) :: cbChildren cs)
      ∧ walk chainedAccessModule
          = [(outerAccess, failureString), (innerAccess, failureString)] := by
  constructor
  · intro k cs h
    cases k <;> simp_all [cb, isOpaqueKind, isAccessKind]
  · rfl

/-- Witness for C4 at a concrete property-access node. -/
theorem walk_flags_each_access_witness :
    isAccessKind .propertyAccessExpression = true
      ∧ cb (TsNode.mk .propertyAccessExpression [TsNode.mk .identifier []])
          = (TsNode.mk .propertyAccessExpression [TsNode.mk .identifier []],
              failureString) :: cbChildren [TsNode.mk .identifier []] :=
  ⟨rfl, walk_flags_each_access.1 .propertyAccessExpression
    [TsNode.mk .identifier []] rfl⟩

/-! ## The extraction-pipeline claims -/

/-- C2: with at least one missing module, `checkSideEffects` fails before
creating any temporary file (the filesystem is returned unchanged) with the
single aggregate error message, and that message lists every missing path. -/
theorem cse_missing_modules (resolvePath : String → String → String)
    (tmpDirName : String) (bundler : Bundler) (cwd : String)
    (esModules : List String) (output : Option String) (fs : FS)
    (h : (resolveModules resolvePath cwd esModules).filter
      (fun m => !fs.existsSync m) ≠ []) :
    checkSideEffects resolvePath tmpDirName bundler cwd esModules output fs
      = (fs, .error (missingMessage
          ((resolveModules resolvePath cwd esModules).filter
            (fun m => !fs.existsSync m))))
    ∧ ∀ m ∈ (resolveModules resolvePath cwd esModules).filter
        (fun m => !fs.existsSync m),
        m.data <:+: (missingMessage
          ((resolveModules resolvePath cwd esModules).filter
            (fun m => !fs.existsSync m))).data := by
  constructor
  · rw [checkSideEffects]
    simp only [List.isEmpty_iff, h]
    simp
  · intro m hm
    exact infix_missingMessage _ m hm

/-- Witness for C2: two missing modules, both listed in the message. -/
theorem cse_missing_modules_witness :
    (resolveModules cexResolve "/" ["/absent.js", "/gone.js"]).filter
        (fun m => !cexFS.existsSync m) ≠ []
      ∧ (checkSideEffects cexResolve "/tmp/scratch" ⟨.error "boom"⟩ "/"
            ["/absent.js", "/gone.js"] none cexFS
          = (cexFS, .error (missingMessage
              ((resolveModules cexResolve "/" ["/absent.js", "/gone.js"]).filter
                (fun m => !cexFS.existsSync m))))
        ∧ ∀ m ∈ (resolveModules cexResolve "/" ["/absent.js", "/gone.js"]).filter
            (fun m => !cexFS.existsSync m),
            m.data <:+: (missingMessage
              ((resolveModules cexResolve "/" ["/absent.js", "/gone.js"]).filter
                (fun m => !cexFS.existsSync m))).data) :=
  ⟨by decide, cse_missing_modules cexResolve "/tmp/scratch" ⟨.error "boom"⟩ "/"
    ["/absent.js", "/gone.js"] none cexFS (by decide)⟩

/-- C1 (amended): on every successful exit the scratch file and directory are
gone from the final filesystem; but when the bundling step raises, the error
propagates with the scratch file and directory still present. -/
theorem cse_cleanup (resolvePath : String → String → String)
    (tmpDirName : String) (bundler : Bundler) (cwd : String)
    (esModules : List String) (output : Option String) (fs : FS) :
    (∀ r, (checkSideEffects resolvePath tmpDirName bundler cwd esModules
            output fs).2 = .ok r →
        (checkSideEffects resolvePath tmpDirName bundler cwd esModules
            output fs).1.fileExists (resolvePath tmpDirName "./index.js") = false
          ∧ (checkSideEffects resolvePath tmpDirName bundler cwd esModules
              output fs).1.dirExists tmpDirName = false)
    ∧ (∀ e, bundler.build = .error e →
        ((resolveModules resolvePath cwd esModules).filter
          (fun m => !fs.existsSync m)).isEmpty = true →
        (checkSideEffects resolvePath tmpDirName bundler cwd esModules
            output fs).2 = .error e
          ∧ (checkSideEffects resolvePath tmpDirName bundler cwd esModules
              output fs).1.fileExists (resolvePath tmpDirName "./index.js") = true
          ∧ (checkSideEffects resolvePath tmpDirName bundler cwd esModules
              output fs).1.dirExists tmpDirName = true) := by
  constructor
  · intro r hr
    rw [checkSideEffects] at *
    by_cases hm : ((resolveModules resolvePath cwd esModules).filter
      (fun m => !fs.existsSync m)).isEmpty
    · simp only [hm, if_true] at hr ⊢
      rcases hb : bundler.build with e | chunks
      · simp [FS.mkdtempSync, hb] at hr
      · simp only [FS.mkdtempSync, hb] at hr ⊢
        rcases output with _ | p
        · simp_all [fileExists_unlinkSync_self, dirExists_rmdirSync_self,
            fileExists_rmdirSync, dirExists_unlinkSync]
        · simp_all [fileExists_unlinkSync_self, dirExists_rmdirSync_self,
            fileExists_rmdirSync, dirExists_unlinkSync]
    · simp [hm] at hr
  · intro e he hm
    rw [checkSideEffects]
    simp only [hm, if_true, FS.mkdtempSync, he]
    refine ⟨trivial, ?_, ?_⟩
    · simp [FS.writeFileSync, FS.fileExists]
    · simp [FS.writeFileSync, FS.mkdirSync, FS.fileExists, FS.dirExists]

/-- Witness for C1 (amended): a successful in-memory invocation leaves
neither the scratch file nor the scratch directory behind. -/
theorem cse_cleanup_witness :
    okInvocation.2 = .ok (some "residual")
      ∧ okInvocation.1.fileExists (cexResolve "/tmp/scratch" "./index.js") = false
      ∧ okInvocation.1.dirExists "/tmp/scratch" = false :=
  ⟨rfl, (cse_cleanup cexResolve "/tmp/scratch" ⟨.ok [⟨false, "residual"⟩]⟩ "/"
    ["/m.js"] none cexFS).1 (some "residual") rfl⟩

/-- Counterexample to C1 as stated: a bundling failure leaves both the
scratch file and the scratch directory in place after `checkSideEffects`
throws. -/
theorem cse_cleanup_counterexample :
    cexInvocation.2 = .error "boom"
      ∧ cexInvocation.1.fileExists "/tmp/scratch/index.js" = true
      ∧ cexInvocation.1.dirExists "/tmp/scratch" = true :=
  ⟨rfl, rfl, rfl⟩

/-- C8: the synthetic entry's content is one bare import statement per
reference, one per line, in input order, over the resolved paths with every
backslash replaced by a forward slash; no backslash survives in the content. -/
theorem syntheticEntry_spec (cwd : String)
    (resolvePath : String → String → String) (esModules : List String) :
    syntheticEntryContent (resolveModules resolvePath cwd esModules)
      = joinSep "\n" (esModules.map fun m =>
          "import " ++ quoteChar ++ replaceBackslashes (resolvePath cwd m)
            ++ quoteChar ++ ";")
    ∧ '\\' ∉ (syntheticEntryContent
        (resolveModules resolvePath cwd esModules)).data := by
  constructor
  · rw [syntheticEntryContent, resolveModules, List.map_map]
    rfl
  · rw [syntheticEntryContent]
    refine joinSep_no_backslash _ _ (by decide) ?_
    intro s hs
    rcases List.mem_map.mp hs with ⟨m, hmem, rfl⟩
    rw [resolveModules] at hmem
    rcases List.mem_map.mp hmem with ⟨m0, _, rfl⟩
    simp only [String.data_append, List.mem_append]
    push_neg
    refine ⟨⟨⟨⟨by decide, by decide⟩, replaceBackslashes_no_backslash _⟩,
      by decide⟩, by decide⟩

/-- C9: with a successful bundling step, an invocation with an output path
returns `undefined` (no residual text), and an invocation without one returns
the non-asset chunks' code joined by newlines. -/
theorem cse_output_mode (resolvePath : String → String → String)
    (tmpDirName : String) (bundler : Bundler) (chunks : List Chunk)
    (cwd : String) (esModules : List String) (output : Option String) (fs : FS)
    (hb : bundler.build = .ok chunks)
    (hm : ((resolveModules resolvePath cwd esModules).filter
      (fun m => !fs.existsSync m)).isEmpty = true) :
    (checkSideEffects resolvePath tmpDirName bundler cwd esModules output fs).2
      = match output with
        | some _ => .ok none
        | none => .ok (some (residualCode chunks)) := by
  rw [checkSideEffects]
  simp only [hm, if_true, FS.mkdtempSync, hb]
  rcases output with _ | p <;> rfl

/-- Witness for C9: the same configuration in on-disk and in-memory mode. -/
theorem cse_output_mode_witness :
    (Bundler.build ⟨.ok [⟨false, "residual"⟩]⟩ = .ok [⟨false, "residual"⟩]
      ∧ ((resolveModules cexResolve "/" ["/m.js"]).filter
          (fun m => !cexFS.existsSync m)).isEmpty = true)
    ∧ (checkSideEffects cexResolve "/tmp/scratch" ⟨.ok [⟨false, "residual"⟩]⟩
        "/" ["/m.js"] (some "/out.js") cexFS).2 = .ok none
    ∧ (checkSideEffects cexResolve "/tmp/scratch" ⟨.ok [⟨false, "residual"⟩]⟩
        "/" ["/m.js"] none cexFS).2 = .ok (some (residualCode [⟨false, "residual"⟩])) :=
  ⟨⟨rfl, by decide⟩,
    cse_output_mode cexResolve "/tmp/scratch" _ _ "/" ["/m.js"] (some "/out.js")
      cexFS rfl (by decide),
    cse_output_mode cexResolve "/tmp/scratch" _ _ "/" ["/m.js"] none
      cexFS rfl (by decide)⟩

/-! ## The regression-harness claims and supporting lemmas -/

lemma fileExists_iff_readFileD (fs : FS) (p : String) :
    fs.fileExists p = true ↔ (fs.readFileD p).isSome = true := by
  simp [FS.fileExists, FS.readFileD, List.any_eq_true, List.find?_isSome]

lemma loadExpected_eq (fs : FS) (p : String)
    (h : fs.dirExists p = true → fs.fileExists p = true) :
    fs.loadExpected p = .ok (fs.expectedString p) := by
  rcases hf : fs.fileExists p with _ | _
  · have hd : fs.dirExists p = false := by
      rcases hd : fs.dirExists p with _ | _
      · rfl
      · rw [h hd] at hf; cases hf
    have hr : fs.readFileD p = none := by
      rcases hr : fs.readFileD p with _ | c
      · rfl
      · have := (fileExists_iff_readFileD fs p).mpr (by simp [hr])
        rw [this] at hf; cases hf
    rw [FS.loadExpected, FS.existsSync, hf, hd]
    simp [FS.expectedString, hr]
  · have hr : (fs.readFileD p).isSome := (fileExists_iff_readFileD fs p).mp hf
    rcases hc : fs.readFileD p with _ | c
    · rw [hc] at hr; cases hr
    · rw [FS.loadExpected, FS.existsSync, hf]
      simp [FS.readFileSyncE, hc, FS.expectedString]

lemma runOneTest_eq (update : Bool) (run : List String → TestCase → String)
    (resolvePath : String → String → String) (testFileDir cwd : String)
    (fs : FS) (t : TestCase)
    (h : fs.dirExists (baselinePath resolvePath cwd t) = true →
      fs.fileExists (baselinePath resolvePath cwd t) = true) :
    runOneTest update run resolvePath testFileDir cwd fs t =
      .ok (if caseResult run resolvePath testFileDir t
            != fs.expectedString (baselinePath resolvePath cwd t) then
          (if update then
            ((fs.recursiveMkDir (dirname (baselinePath resolvePath cwd t))).writeFileSync
              (baselinePath resolvePath cwd t)
              (caseResult run resolvePath testFileDir t), true)
          else (fs, true))
        else (fs, false)) := by
  rw [runOneTest, loadExpected_eq fs _ h]
  cases hb : (caseResult run resolvePath testFileDir t
      != fs.expectedString (baselinePath resolvePath cwd t)) <;>
    cases update <;> simp [hb]

lemma loop_no_update (run : List String → TestCase → String)
    (resolvePath : String → String → String) (testFileDir cwd : String)
    (tests : List TestCase) (fs : FS)
    (hno : ∀ t ∈ tests, fs.dirExists (baselinePath resolvePath cwd t) = true →
      fs.fileExists (baselinePath resolvePath cwd t) = true) :
    runTestsLoop false run resolvePath testFileDir cwd fs tests
      = (fs, (mismatching run resolvePath testFileDir cwd fs tests).map
          descriptionOf, none) := by
  induction tests with
  | nil => simp [runTestsLoop, mismatching]
  | cons t rest ih =>
    have hr := runOneTest_eq false run resolvePath testFileDir cwd fs t
      (hno t (by simp))
    have ihr := ih fun t' ht' => hno t' (List.mem_cons_of_mem _ ht')
    rw [runTestsLoop, hr]
    rcases hmis : (caseResult run resolvePath testFileDir t
        != fs.expectedString (baselinePath resolvePath cwd t)) with _ | _ <;>
      simp [hmis, ihr, mismatching, List.filter_cons]

/-- C5: outside update mode the harness runs every case, leaves the
filesystem untouched, records exactly the descriptions of the mismatching
cases in order, and throws the aggregate failure iff at least one case
mismatches (otherwise the batch passes).  The hypothesis rules out a
directory sitting file-less at a baseline path, where the baseline read
itself would throw. -/
theorem harness_batch (run : List String → TestCase → String)
    (resolvePath : String → String → String) (testFileDir cwd : String)
    (fs : FS) (tests : List TestCase)
    (hno : ∀ t ∈ tests, fs.dirExists (baselinePath resolvePath cwd t) = true →
      fs.fileExists (baselinePath resolvePath cwd t) = true) :
    runTests false run resolvePath testFileDir cwd fs tests
      = ⟨fs, (mismatching run resolvePath testFileDir cwd fs tests).map
            descriptionOf,
          if mismatching run resolvePath testFileDir cwd fs tests = [] then
            .passed
          else .failed (failureMessage ((mismatching run resolvePath testFileDir
            cwd fs tests).map descriptionOf))⟩ := by
  rw [runTests, loop_no_update run resolvePath testFileDir cwd tests fs hno]
  rcases hm : mismatching run resolvePath testFileDir cwd fs tests with _ | ⟨a, l⟩
  · simp
  · simp



lemma fileExists_writeFileSync (fs : FS) (p c q : String) :
    (fs.writeFileSync p c).fileExists q = ((p == q) || fs.fileExists q) := by
  by_cases hpq : p = q
  · subst hpq
    simp [FS.writeFileSync, FS.fileExists]
  · simp only [FS.writeFileSync, FS.fileExists, List.any_cons, List.any_filter]
    have hpq2 : (p == q) = false := by simp [hpq]
    rw [hpq2]
    simp only [Bool.false_or]
    congr 1
    funext a
    by_cases h : a.1 = q
    · have h2 : a.1 ≠ p := fun hh => hpq (hh.symm.trans h)
      have h3 : ¬q = p := fun hh => hpq hh.symm
      simp [h, h2, h3]
    · simp [h]

lemma readFileD_writeFileSync (fs : FS) (p c q : String) :
    (fs.writeFileSync p c).readFileD q
      = if p = q then some c else fs.readFileD q := by
  by_cases hpq : p = q
  · subst hpq
    simp [FS.writeFileSync, FS.readFileD, List.find?_cons]
  · simp only [FS.writeFileSync, FS.readFileD, List.find?_cons, hpq, if_false]
    have hpq2 : ((p, c).1 == q) = false := by simp [hpq]
    rw [hpq2]
    simp only [List.find?_filter]
    have hfun : (fun a : String × String =>
        decide ((a.1 != p) = true ∧ (a.1 == q) = true))
          = (fun e : String × String => e.1 == q) := by
      funext a
      by_cases h : a.1 = q
      · have h2 : a.1 ≠ p := fun hh => hpq (hh.symm.trans h)
        have h3 : ¬q = p := fun hh => hpq hh.symm
        simp [h, h2, h3]
      · simp [h]
    rw [hfun]

lemma files_recursiveMkDirAux (n : Nat) (fs : FS) (d : String) :
    (recursiveMkDirAux n fs d).files = fs.files := by
  induction n generalizing fs d with
  | zero => rfl
  | succ n ih =>
    rw [recursiveMkDirAux]
    by_cases h : fs.existsSync d
    · simp [h]
    · simp only [h, if_false, FS.mkdirSync]
      exact ih fs (dirname d)

lemma readFileD_recursiveMkDir (fs : FS) (d q : String) :
    (fs.recursiveMkDir d).readFileD q = fs.readFileD q := by
  unfold FS.readFileD
  rw [FS.recursiveMkDir, files_recursiveMkDirAux]

lemma fileExists_recursiveMkDir (fs : FS) (d q : String) :
    (fs.recursiveMkDir d).fileExists q = fs.fileExists q := by
  unfold FS.fileExists
  rw [FS.recursiveMkDir, files_recursiveMkDirAux]

lemma dirExists_mkdirSync_mono (fs : FS) (p q : String)
    (h : fs.dirExists q = true) : (fs.mkdirSync p).dirExists q = true := by
  simp only [FS.mkdirSync, FS.dirExists, List.any_cons] at h ⊢
  simp [h]

lemma dirExists_recursiveMkDirAux_mono (n : Nat) (fs : FS) (d q : String)
    (h : fs.dirExists q = true) :
    (recursiveMkDirAux n fs d).dirExists q = true := by
  induction n generalizing fs d with
  | zero => exact h
  | succ n ih =>
    rw [recursiveMkDirAux]
    by_cases he : fs.existsSync d
    · simp [he, h]
    · simp only [he, if_false]
      exact dirExists_mkdirSync_mono _ _ _ (ih fs (dirname d) h)

lemma existsSync_recursiveMkDir_self (fs : FS) (d : String) :
    (fs.recursiveMkDir d).existsSync d = true := by
  rw [FS.recursiveMkDir, recursiveMkDirAux]
  by_cases he : fs.existsSync d
  · simp [he]
  · simp only [he, if_false]
    simp [FS.existsSync, FS.mkdirSync, FS.dirExists]

lemma existsSync_writeFileSync_mono (fs : FS) (p c q : String)
    (h : fs.existsSync q = true) :
    (fs.writeFileSync p c).existsSync q = true := by
  simp only [FS.existsSync, Bool.or_eq_true] at h ⊢
  rcases h with h | h
  · left; rw [fileExists_writeFileSync]; simp [h]
  · right; exact h

lemma dirExists_writeFileSync (fs : FS) (p c q : String) :
    (fs.writeFileSync p c).dirExists q = fs.dirExists q := rfl



lemma runOneTest_fs_props (update : Bool) (run : List String → TestCase → String)
    (resolvePath : String → String → String) (testFileDir cwd : String)
    (fs : FS) (t : TestCase) (fs1 : FS) (b : Bool)
    (h : runOneTest update run resolvePath testFileDir cwd fs t = .ok (fs1, b)) :
    (∀ q, fs.dirExists q = true → fs1.dirExists q = true)
    ∧ (∀ q, q ≠ baselinePath resolvePath cwd t → fs1.readFileD q = fs.readFileD q)
    ∧ (∀ q, fs.fileExists q = true → fs1.fileExists q = true)
    ∧ (∀ q, fs.existsSync q = true → fs1.existsSync q = true) := by
  rw [runOneTest] at h
  rcases hle : fs.loadExpected (baselinePath resolvePath cwd t) with e | v <;>
    simp only [hle] at h
  · exact absurd h (by simp)
  · have hcases : fs1 = ((fs.recursiveMkDir (dirname (baselinePath resolvePath
        cwd t))).writeFileSync (baselinePath resolvePath cwd t)
          (caseResult run resolvePath testFileDir t)) ∨ fs1 = fs := by
      split at h
      · split at h
        · simp only [Except.ok.injEq, Prod.mk.injEq] at h
          exact Or.inl h.1.symm
        · simp only [Except.ok.injEq, Prod.mk.injEq] at h
          exact Or.inr h.1.symm
      · simp only [Except.ok.injEq, Prod.mk.injEq] at h
        exact Or.inr h.1.symm
    rcases hcases with hW | hid
    · subst hW
      refine ⟨?_, ?_, ?_, ?_⟩
      · intro q hq
        rw [dirExists_writeFileSync]
        exact dirExists_recursiveMkDirAux_mono _ _ _ _ hq
      · intro q hq
        rw [readFileD_writeFileSync]
        rw [if_neg (fun hh => hq hh.symm)]
        exact readFileD_recursiveMkDir _ _ _
      · intro q hq
        rw [fileExists_writeFileSync, fileExists_recursiveMkDir]
        simp [hq]
      · intro q hq
        apply existsSync_writeFileSync_mono
        simp only [FS.existsSync, Bool.or_eq_true] at hq ⊢
        rcases hq with hq | hq
        · left; rw [fileExists_recursiveMkDir]; exact hq
        · right; exact dirExists_recursiveMkDirAux_mono _ _ _ _ hq
    · subst hid
      exact ⟨fun q hq => hq, fun q _ => rfl, fun q hq => hq, fun q hq => hq⟩

lemma runTestsLoop_fs_props (update : Bool) (run : List String → TestCase → String)
    (resolvePath : String → String → String) (testFileDir cwd : String)
    (tests : List TestCase) (fs : FS) :
    (∀ q, fs.dirExists q = true →
      ((runTestsLoop update run resolvePath testFileDir cwd fs tests).1).dirExists q = true)
    ∧ (∀ q, q ∉ tests.map (baselinePath resolvePath cwd) →
      ((runTestsLoop update run resolvePath testFileDir cwd fs tests).1).readFileD q = fs.readFileD q)
    ∧ (∀ q, fs.fileExists q = true →
      ((runTestsLoop update run resolvePath testFileDir cwd fs tests).1).fileExists q = true)
    ∧ (∀ q, fs.existsSync q = true →
      ((runTestsLoop update run resolvePath testFileDir cwd fs tests).1).existsSync q = true) := by
  induction tests generalizing fs with
  | nil => exact ⟨fun q hq => hq, fun q _ => rfl, fun q hq => hq, fun q hq => hq⟩
  | cons t rest ih =>
    rw [runTestsLoop]
    rcases hstep : runOneTest update run resolvePath testFileDir cwd fs t with e | ⟨fs1, b⟩
    · exact ⟨fun q hq => hq, fun q _ => rfl, fun q hq => hq, fun q hq => hq⟩
    · have hp := runOneTest_fs_props update run resolvePath testFileDir cwd fs t fs1 b hstep
      have hl := ih fs1
      refine ⟨?_, ?_, ?_, ?_⟩
      · intro q hq
        exact hl.1 q (hp.1 q hq)
      · intro q hq
        simp only [List.map_cons, List.mem_cons] at hq
        push_neg at hq
        rw [hl.2.1 q hq.2]
        exact hp.2.1 q hq.1
      · intro q hq
        exact hl.2.2.1 q (hp.2.2.1 q hq)
      · intro q hq
        exact hl.2.2.2 q (hp.2.2.2 q hq)



lemma expectedString_writeFileSync_self (fs : FS) (p c : String) :
    (fs.writeFileSync p c).expectedString p = c := by
  rw [FS.expectedString, readFileD_writeFileSync]
  simp

lemma loop_update (run : List String → TestCase → String)
    (resolvePath : String → String → String) (testFileDir cwd : String) :
    ∀ (tests : List TestCase) (fs : FS),
    (tests.map (baselinePath resolvePath cwd)).Nodup →
    (∀ t ∈ tests, ((runTestsLoop true run resolvePath testFileDir cwd fs
      tests).1).dirExists (baselinePath resolvePath cwd t) = false) →
    (runTestsLoop true run resolvePath testFileDir cwd fs tests).2.2 = none
    ∧ (runTestsLoop true run resolvePath testFileDir cwd fs tests).2.1
        = (mismatching run resolvePath testFileDir cwd fs tests).map descriptionOf
    ∧ (∀ t ∈ tests, ((runTestsLoop true run resolvePath testFileDir cwd fs
        tests).1).expectedString (baselinePath resolvePath cwd t)
          = caseResult run resolvePath testFileDir t)
    ∧ (∀ t ∈ tests, (caseResult run resolvePath testFileDir t
          != fs.expectedString (baselinePath resolvePath cwd t)) = true →
        ((runTestsLoop true run resolvePath testFileDir cwd fs
          tests).1).fileExists (baselinePath resolvePath cwd t) = true
        ∧ ((runTestsLoop true run resolvePath testFileDir cwd fs
          tests).1).existsSync (dirname (baselinePath resolvePath cwd t)) = true) := by
  intro tests
  induction tests with
  | nil =>
    intro fs _ _
    exact ⟨rfl, rfl, fun t ht => absurd ht (List.not_mem_nil t),
      fun t ht => absurd ht (List.not_mem_nil t)⟩
  | cons t rest ih =>
    intro fs hnodup hdirs
    rw [List.map_cons, List.nodup_cons] at hnodup
    have hnd1 := hnodup.1
    have hnd2 := hnodup.2
    -- the head baseline path is not a directory in the starting filesystem
    have hdirt : fs.dirExists (baselinePath resolvePath cwd t) = false := by
      rcases hfd : fs.dirExists (baselinePath resolvePath cwd t) with _ | _
      · rfl
      · have hmono := (runTestsLoop_fs_props true run resolvePath testFileDir cwd
          (t :: rest) fs).1 (baselinePath resolvePath cwd t) hfd
        rw [hdirs t (by simp)] at hmono
        exact absurd hmono (by simp)
    have hstep := runOneTest_eq true run resolvePath testFileDir cwd fs t
      (by intro hd; rw [hdirt] at hd; exact absurd hd (by simp))
    simp only [if_true] at hstep
    rcases hmis : (caseResult run resolvePath testFileDir t
        != fs.expectedString (baselinePath resolvePath cwd t)) with _ | _
    · -- matching case: the filesystem is untouched by this case
      rw [hmis] at hstep
      simp only [Bool.false_eq_true, if_false] at hstep
      have hcons : runTestsLoop true run resolvePath testFileDir cwd fs (t :: rest)
          = ((runTestsLoop true run resolvePath testFileDir cwd fs rest).1,
             (runTestsLoop true run resolvePath testFileDir cwd fs rest).2.1,
             (runTestsLoop true run resolvePath testFileDir cwd fs rest).2.2) := by
        rw [runTestsLoop, hstep]
        rfl
      have hrest := ih fs hnd2 (by
        intro t' ht'
        have := hdirs t' (List.mem_cons_of_mem _ ht')
        rw [hcons] at this
        exact this)
      refine ⟨?_, ?_, ?_, ?_⟩
      · rw [hcons]; exact hrest.1
      · rw [hcons]
        simp only
        rw [hrest.2.1]
        simp [mismatching, List.filter_cons, hmis]
      · intro t' ht'
        rcases List.mem_cons.mp ht' with h1 | h2
        · rw [h1, hcons]
          simp only
          have hframe := (runTestsLoop_fs_props true run resolvePath testFileDir
            cwd rest fs).2.1 (baselinePath resolvePath cwd t) hnd1
          rw [FS.expectedString, hframe, ← FS.expectedString]
          exact (bne_eq_false_iff_eq.mp hmis).symm
        · rw [hcons]
          exact hrest.2.2.1 t' h2
      · intro t' ht' hm
        rcases List.mem_cons.mp ht' with h1 | h2
        · rw [h1, hmis] at hm
          exact absurd hm (by simp)
        · rw [hcons]
          exact hrest.2.2.2 t' h2 hm
    · -- mismatching case: the baseline is rewritten
      rw [hmis] at hstep
      simp only [if_true] at hstep
      set W := (fs.recursiveMkDir (dirname (baselinePath resolvePath
        cwd t))).writeFileSync (baselinePath resolvePath cwd t)
          (caseResult run resolvePath testFileDir t) with hWdef
      have hcons : runTestsLoop true run resolvePath testFileDir cwd fs (t :: rest)
          = ((runTestsLoop true run resolvePath testFileDir cwd W rest).1,
             descriptionOf t ::
               (runTestsLoop true run resolvePath testFileDir cwd W rest).2.1,
             (runTestsLoop true run resolvePath testFileDir cwd W rest).2.2) := by
        rw [runTestsLoop, hstep]
        rfl
      -- facts about the rewritten filesystem
      have hWexp : W.expectedString (baselinePath resolvePath cwd t)
          = caseResult run resolvePath testFileDir t := by
        rw [hWdef]; exact expectedString_writeFileSync_self _ _ _
      have hWframe : ∀ q, q ≠ baselinePath resolvePath cwd t →
          W.readFileD q = fs.readFileD q := by
        intro q hq
        rw [hWdef, readFileD_writeFileSync, if_neg (fun hh => hq hh.symm),
          readFileD_recursiveMkDir]
      have hmisW : mismatching run resolvePath testFileDir cwd W rest
          = mismatching run resolvePath testFileDir cwd fs rest := by
        rw [mismatching, mismatching]
        apply List.filter_congr
        intro t' ht'
        have hne : baselinePath resolvePath cwd t' ≠
            baselinePath resolvePath cwd t := by
          intro hh
          exact hnd1 (hh ▸ List.mem_map_of_mem (baselinePath resolvePath cwd) ht')
        rw [FS.expectedString, hWframe _ hne, ← FS.expectedString]
      have hrest := ih W hnd2 (by
        intro t' ht'
        have := hdirs t' (List.mem_cons_of_mem _ ht')
        rw [hcons] at this
        exact this)
      refine ⟨?_, ?_, ?_, ?_⟩
      · rw [hcons]; exact hrest.1
      · rw [hcons]
        simp only
        rw [hrest.2.1, hmisW]
        simp [mismatching, List.filter_cons, hmis]
      · intro t' ht'
        rcases List.mem_cons.mp ht' with h1 | h2
        · rw [h1, hcons]
          simp only
          have hframe := (runTestsLoop_fs_props true run resolvePath testFileDir
            cwd rest W).2.1 (baselinePath resolvePath cwd t) hnd1
          rw [FS.expectedString, hframe, ← FS.expectedString, hWexp]
        · rw [hcons]
          exact hrest.2.2.1 t' h2
      · intro t' ht' hm
        rcases List.mem_cons.mp ht' with h1 | h2
        · rw [h1, hcons]
          rw [h1] at hm
          constructor
          · simp only
            apply (runTestsLoop_fs_props true run resolvePath testFileDir
              cwd rest W).2.2.1
            rw [hWdef, fileExists_writeFileSync]
            simp
          · simp only
            apply (runTestsLoop_fs_props true run resolvePath testFileDir
              cwd rest W).2.2.2
            rw [hWdef]
            apply existsSync_writeFileSync_mono
            exact existsSync_recursiveMkDir_self _ _
        · rw [hcons]
          apply hrest.2.2.2 t' h2
          have hne : baselinePath resolvePath cwd t' ≠
              baselinePath resolvePath cwd t := by
            intro hh
            exact hnd1 (hh ▸ List.mem_map_of_mem (baselinePath resolvePath cwd) h2)
          rw [FS.expectedString, hWframe _ hne, ← FS.expectedString]
          exact hm



lemma runTests_fs (update : Bool) (run : List String → TestCase → String)
    (resolvePath : String → String → String) (testFileDir cwd : String)
    (fs : FS) (tests : List TestCase) :
    (runTests update run resolvePath testFileDir cwd fs tests).fs
      = (runTestsLoop update run resolvePath testFileDir cwd fs tests).1 := by
  rw [runTests]
  rcases h : runTestsLoop update run resolvePath testFileDir cwd fs tests
    with ⟨fs1, failed, fault⟩
  rcases fault with _ | e
  · simp only
    split <;> (try split) <;> rfl
  · rfl

lemma runTests_failed (update : Bool) (run : List String → TestCase → String)
    (resolvePath : String → String → String) (testFileDir cwd : String)
    (fs : FS) (tests : List TestCase) :
    (runTests update run resolvePath testFileDir cwd fs tests).failed
      = (runTestsLoop update run resolvePath testFileDir cwd fs tests).2.1 := by
  rw [runTests]
  rcases h : runTestsLoop update run resolvePath testFileDir cwd fs tests
    with ⟨fs1, failed, fault⟩
  rcases fault with _ | e
  · simp only
    split <;> (try split) <;> rfl
  · rfl

lemma runTestsLoop_cons_ok (update : Bool) (run : List String → TestCase → String)
    (resolvePath : String → String → String) (testFileDir cwd : String)
    (fs : FS) (t : TestCase) (rest : List TestCase) (fs1 : FS) (b : Bool)
    (h : runOneTest update run resolvePath testFileDir cwd fs t = .ok (fs1, b)) :
    runTestsLoop update run resolvePath testFileDir cwd fs (t :: rest)
      = ((runTestsLoop update run resolvePath testFileDir cwd fs1 rest).1,
         (if b then [descriptionOf t] else [])
           ++ (runTestsLoop update run resolvePath testFileDir cwd fs1 rest).2.1,
         (runTestsLoop update run resolvePath testFileDir cwd fs1 rest).2.2) := by
  rw [runTestsLoop, h]

lemma runTests_all_match (update : Bool) (run : List String → TestCase → String)
    (resolvePath : String → String → String) (testFileDir cwd : String)
    (fs : FS) (tests : List TestCase)
    (h : ∀ t ∈ tests, (fs.dirExists (baselinePath resolvePath cwd t) = true →
        fs.fileExists (baselinePath resolvePath cwd t) = true)
      ∧ caseResult run resolvePath testFileDir t
          = fs.expectedString (baselinePath resolvePath cwd t)) :
    runTests update run resolvePath testFileDir cwd fs tests
      = ⟨fs, [], .passed⟩ := by
  have hloop : runTestsLoop update run resolvePath testFileDir cwd fs tests
      = (fs, [], none) := by
    induction tests with
    | nil => rfl
    | cons t rest ih =>
      have ht := h t (by simp)
      have hstep := runOneTest_eq update run resolvePath testFileDir cwd fs t ht.1
      rw [bne_eq_false_iff_eq.mpr ht.2] at hstep
      simp only [Bool.false_eq_true, if_false] at hstep
      rw [runTestsLoop_cons_ok update run resolvePath testFileDir cwd fs t rest
        fs false hstep, ih fun t' ht' => h t' (List.mem_cons_of_mem _ ht')]
      rfl
  rw [runTests, hloop]
  rfl



/-- C6 (amended): in update mode the batch never throws; every mismatching
case's baseline is rewritten with its extraction result (parent directories
created) and reported as updated; and, provided the cases resolve to
pairwise-distinct baseline paths and no directory ends up at a baseline
path, a subsequent non-update run over the unchanged suite passes. -/
theorem harness_update_mode (run : List String → TestCase → String)
    (resolvePath : String → String → String) (testFileDir cwd : String)
    (fs : FS) (tests : List TestCase)
    (h1 : (tests.map (baselinePath resolvePath cwd)).Nodup)
    (h2 : ∀ t ∈ tests, ((runTests true run resolvePath testFileDir cwd fs
        tests).fs).dirExists (baselinePath resolvePath cwd t) = false) :
    (runTests true run resolvePath testFileDir cwd fs tests).failed
        = (mismatching run resolvePath testFileDir cwd fs tests).map descriptionOf
    ∧ (runTests true run resolvePath testFileDir cwd fs tests).result
        = (if mismatching run resolvePath testFileDir cwd fs tests = [] then
            .passed
          else .updated (updatedMessage ((mismatching run resolvePath testFileDir
            cwd fs tests).map descriptionOf)))
    ∧ (∀ t ∈ tests, (caseResult run resolvePath testFileDir t
          != fs.expectedString (baselinePath resolvePath cwd t)) = true →
        ((runTests true run resolvePath testFileDir cwd fs tests).fs).readFileD
            (baselinePath resolvePath cwd t)
            = some (caseResult run resolvePath testFileDir t)
          ∧ ((runTests true run resolvePath testFileDir cwd fs tests).fs).existsSync
              (dirname (baselinePath resolvePath cwd t)) = true)
    ∧ runTests false run resolvePath testFileDir cwd
        ((runTests true run resolvePath testFileDir cwd fs tests).fs) tests
        = ⟨(runTests true run resolvePath testFileDir cwd fs tests).fs, [],
            .passed⟩ := by
  have hfs := runTests_fs true run resolvePath testFileDir cwd fs tests
  have h2' : ∀ t ∈ tests, ((runTestsLoop true run resolvePath testFileDir cwd fs
      tests).1).dirExists (baselinePath resolvePath cwd t) = false := by
    intro t ht
    rw [← hfs]
    exact h2 t ht
  have hU := loop_update run resolvePath testFileDir cwd tests fs h1 h2'
  rcases hl : runTestsLoop true run resolvePath testFileDir cwd fs tests
    with ⟨fs1, fl, fault⟩
  simp only [hl] at hU hfs h2'
  obtain ⟨hU1, hU2, hU3, hU4⟩ := hU
  subst hU1
  refine ⟨?_, ?_, ?_, ?_⟩
  · rw [runTests_failed true run resolvePath testFileDir cwd fs tests, hl, hU2]
  · rw [runTests, hl]
    rcases hmm : mismatching run resolvePath testFileDir cwd fs tests
      with _ | ⟨a, l⟩ <;> rw [hmm] at hU2 <;> subst hU2 <;> simp
  · intro t ht hm
    rw [hfs]
    refine ⟨?_, (hU4 t ht hm).2⟩
    have hfe := (hU4 t ht hm).1
    rcases hrd : fs1.readFileD (baselinePath resolvePath cwd t) with _ | c
    · have := (fileExists_iff_readFileD fs1 (baselinePath resolvePath cwd t)).mp hfe
      rw [hrd] at this
      cases this
    · have hes := hU3 t ht
      rw [FS.expectedString, hrd] at hes
      simp only [Option.getD_some] at hes
      rw [hes]
  · rw [hfs]
    apply runTests_all_match
    intro t ht
    refine ⟨?_, (hU3 t ht).symm⟩
    intro hd
    rw [h2' t ht] at hd
    exact absurd hd (by simp)



/-- C7: when nothing exists at a case's baseline path, the harness loads the
expected value as the empty string instead of raising, and the comparison
proceeds: the case is recorded as mismatching exactly when its extraction
result is nonempty. -/
theorem harness_missing_baseline (update : Bool)
    (run : List String → TestCase → String)
    (resolvePath : String → String → String) (testFileDir cwd : String)
    (fs : FS) (t : TestCase)
    (h : fs.existsSync (baselinePath resolvePath cwd t) = false) :
    fs.loadExpected (baselinePath resolvePath cwd t) = .ok ""
      ∧ ∃ fs1, runOneTest update run resolvePath testFileDir cwd fs t
          = .ok (fs1, caseResult run resolvePath testFileDir t != "") := by
  have hfe : fs.fileExists (baselinePath resolvePath cwd t) = false := by
    rcases hf : fs.fileExists (baselinePath resolvePath cwd t) with _ | _
    · rfl
    · rw [FS.existsSync, hf] at h
      exact absurd h (by simp)
  have hd : fs.dirExists (baselinePath resolvePath cwd t) = false := by
    rcases hdd : fs.dirExists (baselinePath resolvePath cwd t) with _ | _
    · rfl
    · rw [FS.existsSync, hdd] at h
      simp at h
  have hexp : fs.expectedString (baselinePath resolvePath cwd t) = "" := by
    rcases hrd : fs.readFileD (baselinePath resolvePath cwd t) with _ | c
    · simp [FS.expectedString, hrd]
    · have := (fileExists_iff_readFileD fs (baselinePath resolvePath cwd t)).mpr
        (by simp [hrd])
      rw [hfe] at this
      exact absurd this (by simp)
  constructor
  · rw [FS.loadExpected, h]
    simp
  · rw [runOneTest_eq update run resolvePath testFileDir cwd fs t
      (by rw [hd]; intro hh; exact absurd hh (by simp)), hexp]
    rcases hb : (caseResult run resolvePath testFileDir t != "") with _ | _
    · exact ⟨fs, by simp⟩
    · rcases update with _ | _
      · exact ⟨fs, by simp⟩
      · exact ⟨(fs.recursiveMkDir (dirname (baselinePath resolvePath
          cwd t))).writeFileSync (baselinePath resolvePath cwd t)
            (caseResult run resolvePath testFileDir t), by simp⟩

/-- C10: in update mode a case whose extraction result equals its stored
expected text leaves the filesystem untouched (no baseline write occurs),
and a suite of only matching cases leaves the whole filesystem unchanged
with the batch passing. -/
theorem harness_update_untouched (run : List String → TestCase → String)
    (resolvePath : String → String → String) (testFileDir cwd : String)
    (fs : FS) :
    (∀ t : TestCase, (fs.dirExists (baselinePath resolvePath cwd t) = true →
        fs.fileExists (baselinePath resolvePath cwd t) = true) →
      caseResult run resolvePath testFileDir t
          = fs.expectedString (baselinePath resolvePath cwd t) →
      runOneTest true run resolvePath testFileDir cwd fs t = .ok (fs, false))
    ∧ ∀ tests : List TestCase,
      (∀ t ∈ tests, (fs.dirExists (baselinePath resolvePath cwd t) = true →
          fs.fileExists (baselinePath resolvePath cwd t) = true)
        ∧ caseResult run resolvePath testFileDir t
            = fs.expectedString (baselinePath resolvePath cwd t)) →
      runTests true run resolvePath testFileDir cwd fs tests
        = ⟨fs, [], .passed⟩ := by
  constructor
  · intro t hnd hmatch
    rw [runOneTest_eq true run resolvePath testFileDir cwd fs t hnd,
      bne_eq_false_iff_eq.mpr hmatch]
    simp
  · intro tests h
    exact runTests_all_match true run resolvePath testFileDir cwd fs tests h

/-- Witness for C5: a matching case and a mismatching case; only the second
is listed and the batch throws. -/
theorem harness_batch_witness :
    (∀ t ∈ [w5t1, w5t2], w5FS.dirExists (baselinePath hResolve "cwd" t) = true →
        w5FS.fileExists (baselinePath hResolve "cwd" t) = true)
    ∧ runTests false sharedRun hResolve "tfd" "cwd" w5FS [w5t1, w5t2]
        = ⟨w5FS, (mismatching sharedRun hResolve "tfd" "cwd" w5FS
              [w5t1, w5t2]).map descriptionOf,
            if mismatching sharedRun hResolve "tfd" "cwd" w5FS [w5t1, w5t2] = []
            then .passed
            else .failed (failureMessage ((mismatching sharedRun hResolve "tfd"
              "cwd" w5FS [w5t1, w5t2]).map descriptionOf))⟩ :=
  ⟨by decide, harness_batch sharedRun hResolve "tfd" "cwd" w5FS [w5t1, w5t2]
    (by decide)⟩

/-- Counterexample to C6 as stated: two cases sharing one baseline path both
mismatch; the update run rewrites the shared baseline twice, and the
subsequent non-update run over the unchanged suite fails on the first case
instead of passing. -/
theorem harness_update_mode_counterexample :
    (caseResult sharedRun hResolve "tfd" shared1
        != hFS.expectedString (baselinePath hResolve "cwd" shared1)) = true
    ∧ sharedUpdateRun.result = .updated (updatedMessage ["m1", "m2"])
    ∧ (runTests false sharedRun hResolve "tfd" "cwd" sharedUpdateRun.fs
        [shared1, shared2]).result = .failed (failureMessage ["m1"]) := by
  refine ⟨rfl, rfl, rfl⟩

/-- Witness for C6 (amended): a single failing case is updated, and the
subsequent non-update run passes. -/
theorem harness_update_mode_witness :
    ((([shared1].map (baselinePath hResolve "cwd")).Nodup)
      ∧ (∀ t ∈ [shared1], ((runTests true sharedRun hResolve "tfd" "cwd" hFS
          [shared1]).fs).dirExists (baselinePath hResolve "cwd" t) = false))
    ∧ runTests false sharedRun hResolve "tfd" "cwd"
        ((runTests true sharedRun hResolve "tfd" "cwd" hFS [shared1]).fs)
          [shared1]
        = ⟨(runTests true sharedRun hResolve "tfd" "cwd" hFS [shared1]).fs, [],
            .passed⟩ :=
  ⟨⟨by decide, by decide⟩,
    (harness_update_mode sharedRun hResolve "tfd" "cwd" hFS [shared1]
      (by decide) (by decide)).2.2.2⟩

/-- Witness for C7: a case with no baseline file loads the empty expected
string and proceeds to a mismatch on its nonempty result. -/
theorem harness_missing_baseline_witness :
    hFS.existsSync (baselinePath hResolve "cwd" shared1) = false
    ∧ (hFS.loadExpected (baselinePath hResolve "cwd" shared1) = .ok ""
      ∧ ∃ fs1, runOneTest false sharedRun hResolve "tfd" "cwd" hFS shared1
          = .ok (fs1, caseResult sharedRun hResolve "tfd" shared1 != "")) :=
  ⟨by decide, harness_missing_baseline false sharedRun hResolve "tfd" "cwd"
    hFS shared1 (by decide)⟩

/-- Witness for C10: an update-mode run over one matching case writes
nothing. -/
theorem harness_update_untouched_witness :
    ((w5FS.dirExists (baselinePath hResolve "cwd" w5t1) = true →
        w5FS.fileExists (baselinePath hResolve "cwd" w5t1) = true)
      ∧ caseResult sharedRun hResolve "tfd" w5t1
          = w5FS.expectedString (baselinePath hResolve "cwd" w5t1))
    ∧ runOneTest true sharedRun hResolve "tfd" "cwd" w5FS w5t1 = .ok (w5FS, false)
    ∧ runTests true sharedRun hResolve "tfd" "cwd" w5FS [w5t1]
        = ⟨w5FS, [], .passed⟩ :=
  ⟨⟨by decide, by decide⟩,
    (harness_update_untouched sharedRun hResolve "tfd" "cwd" w5FS).1 w5t1
      (by decide) (by decide),
    (harness_update_untouched sharedRun hResolve "tfd" "cwd" w5FS).2 [w5t1]
      (by decide)⟩

end CheckSideEffects
